import Mathlib

/-! The content / advertisement aggregation service of rtwent/testgo.

A shallow embedding of `main.go` and theorems about it.

Conventions of the embedding.

* A Go slice is a `List`; a Go `string` is a `String`; `[]byte` read from a feed is `Bytes`.
* Go `int` is `Int`.  The only arithmetic in the program is on `i+1` with `i` a slice index,
  so every intermediate value lies between `-2^63` and `2^63 - 1` and no wrap-around occurs.
  Go's `/` and `%` truncate toward zero: they are `Int.tdiv` and `Int.tmod`.
* A run-time panic is `Except.error` with a `Panic` value.
* `os.Getenv("NAME")` is the field `NAME` of an `Env` record (an unset variable is `""`).
* The standard library is not part of the program.  `encoding/json` is taken as a parameter
  (`JsonLib`); `strconv.Atoi` and `fmt.Fprintf` (without operands) are modelled after the
  Go sources.  The network is a parameter (`Net`).
-/

set_option linter.dupNamespace false

namespace Testgo

/-! ## Data model (`main.go`, lines 18-82) -/

/-- Raw bytes of a feed. -/
abbrev Bytes := List UInt8

/-- ArticleItem single item for article.  `CerebroScore` is a `float32`; it is kept as its
IEEE-754 bit pattern, the program never computes with it. -/
structure ArticleItem where
  Articletype : String
  HarvesterID : String
  CerebroScore : Nat
  URL : String
  Title : String
  CleanImage : String
deriving DecidableEq, Repr

/-- ArticleItems root node for articles. -/
structure ArticleItems where
  Items : List ArticleItem
deriving DecidableEq, Repr

/-- Articles all articles. -/
structure Articles where
  StatusCode : Int
  Articles : ArticleItems
deriving DecidableEq, Repr

/-- AdvItem struct for storing adv items. -/
structure AdvItem where
  AdvType : String
  HarvesterID : String
  CommercialPartner : String
  LogoURL : String
  CerebroScore : Nat
  URL : String
  Title : String
  CleanImage : String
deriving DecidableEq, Repr

/-- AdvItems root node for adv items. -/
structure AdvItems where
  Items : List AdvItem
deriving DecidableEq, Repr

/-- Advs all advertisements. -/
structure Advs where
  StatusCode : Int
  Advs : AdvItems
deriving DecidableEq, Repr

/-- DefaultAdv default value of advertising, when all advertisements were shown.  Its single
field is `Type` in the source, a reserved word here. -/
structure DefaultAdv where
  TypeText : String
deriving DecidableEq, Repr

/-- Single application error. -/
structure appError where
  Code : Int
  Message : String
deriving DecidableEq, Repr

/-- Collection of application errors. -/
structure appErrors where
  ErrorContent : List appError
deriving DecidableEq, Repr

/-- ResponseItem: the interface implemented by `DefaultAdv`, `AdvItem` and `ArticleItem`
(lines 105-120), as the sum of its three implementations. -/
inductive ResponseItem where
  | articleItem (a : ArticleItem)
  | advItem (a : AdvItem)
  | defaultAdv (d : DefaultAdv)
deriving DecidableEq, Repr

/-- Final structure for response. -/
structure responseItems where
  StatusCode : Int
  Content : List ResponseItem
deriving DecidableEq, Repr

/-- The environment variables the program reads. -/
structure Env where
  ADS_FREQUENCY : String
  ADV_DEFAULT_TEXT : String
  ARTICLES_ARCHIVE : String
  ADS_ARCHIVE : String
deriving DecidableEq, Repr

/-- Run-time panics of the Go runtime that the program can raise. -/
inductive Panic where
  | divideByZero
  | indexOutOfRange
deriving DecidableEq, Repr

/-! ## `strconv.Atoi` (Go standard library, 64-bit `int`) -/

/-- The two errors of `strconv`. -/
inductive NumError where
  | ErrSyntax
  | ErrRange
deriving DecidableEq, Repr

/-- Function `strconv.ParseUint(s, 10, 64)` on the text after the sign, with the value read so
far.  The bytes are read in order: a byte that is not a digit is `ErrSyntax`, a digit that
takes the value past `2^64 - 1` is `ErrRange`, and the first of the two ends the scan. -/
def parseUint : List Char → Nat → Except NumError Nat
  | [], n => Except.ok n
  | c :: cs, n =>
    if '0' ≤ c ∧ c ≤ '9' then
      if n * 10 + (c.toNat - '0'.toNat) > 2 ^ 64 - 1 then Except.error NumError.ErrRange
      else parseUint cs (n * 10 + (c.toNat - '0'.toNat))
    else Except.error NumError.ErrSyntax

/-- Model of `strconv.Atoi`: an optional sign followed by at least one decimal digit.  It returns
`(0, ErrSyntax)` on malformed input and the nearest bound with `ErrRange` when the value
does not fit a 64-bit `int` (`ParseUint` then gave `2^64 - 1` or a value past the bound). -/
def Atoi (s : String) : Int × Option NumError :=
  let s0 := s.toList
  let neg := s0.head? = some '-'
  let digits := match s0 with
    | '-' :: t => t
    | '+' :: t => t
    | _ => s0
  match digits with
  | [] => (0, some NumError.ErrSyntax)
  | _ :: _ =>
    match parseUint digits 0 with
    | Except.error NumError.ErrSyntax => (0, some NumError.ErrSyntax)
    | Except.error NumError.ErrRange =>
      if neg then (-(2 ^ 63), some NumError.ErrRange) else (2 ^ 63 - 1, some NumError.ErrRange)
    | Except.ok un =>
      if ¬ neg ∧ un ≥ 2 ^ 63 then (2 ^ 63 - 1, some NumError.ErrRange)
      else if neg ∧ un > 2 ^ 63 then (-(2 ^ 63), some NumError.ErrRange)
      else (if neg then -(un : Int) else (un : Int), none)

/-! ## Error collection (lines 99-103) -/

/-- Just adding error to appErrors collection: `append(appErrors.ErrorContent, errorToAdd)`. -/
def appErrors.addError (errs : appErrors) (code : Int) (err : String) : appErrors :=
  let errorToAdd : appError := { Code := code, Message := err }
  { ErrorContent := errs.ErrorContent ++ [errorToAdd] }

/-! ## Interleaver (lines 162-188) -/

/-- getAdvertise getting advertise in AdvItems by key.  The only test is `key < len(Items)`;
the index expression `advItems.Items[key]` panics when `key` is negative. -/
def AdvItems.getAdvertise (env : Env) (advItems : AdvItems) (key : Int) :
    Except Panic ResponseItem :=
  if key < (advItems.Items.length : Int) then
    if key < 0 then Except.error Panic.indexOutOfRange
    else
      match advItems.Items[key.toNat]? with
      | some item => Except.ok (ResponseItem.advItem item)
      | none => Except.error Panic.indexOutOfRange
  else
    Except.ok (ResponseItem.defaultAdv { TypeText := env.ADV_DEFAULT_TEXT })

/-- The `for i, article := range articles.Articles.Items` loop of `combineContentWithAds`,
started at index `i` with the slice built so far.  The second component of the state is a
ghost log of the keys handed to `getAdvertise`, in call order. -/
def combineLoop (env : Env) (adsFrequency : Int) (ads : Advs) :
    Nat → List ArticleItem → List ResponseItem × List Int →
      Except Panic (List ResponseItem × List Int)
  | _, [], st => Except.ok st
  | i, article :: rest, (responseItemsSlice, keys) =>
    let responseItemsSlice := responseItemsSlice ++ [ResponseItem.articleItem article]
    if adsFrequency = 0 then Except.error Panic.divideByZero
    else if Int.tmod ((i : Int) + 1) adsFrequency = 0 then
      let key := Int.tdiv ((i : Int) + 1) adsFrequency - 1
      match ads.Advs.getAdvertise env key with
      | Except.error p => Except.error p
      | Except.ok ad => combineLoop env adsFrequency ads (i + 1) rest
          (responseItemsSlice ++ [ad], keys ++ [key])
    else combineLoop env adsFrequency ads (i + 1) rest (responseItemsSlice, keys)

/-- The state of `combineContentWithAds` when its loop ends: `responseItemsSlice` and the log
of keys passed to `getAdvertise`.  `adsFrequency, _ := strconv.Atoi(...)` drops the error. -/
def combineRun (env : Env) (articles : Articles) (ads : Advs) :
    Except Panic (List ResponseItem × List Int) :=
  let adsFrequency := (Atoi env.ADS_FREQUENCY).1
  combineLoop env adsFrequency ads 0 articles.Articles.Items ([], [])

/-- The item sequence `responseItemsSlice` built by `combineContentWithAds`. -/
def responseItemsSlice (env : Env) (articles : Articles) (ads : Advs) :
    Except Panic (List ResponseItem) :=
  match combineRun env articles ads with
  | Except.error p => Except.error p
  | Except.ok st => Except.ok st.1

/-- The keys `combineContentWithAds` passes to `getAdvertise`, in call order. -/
def advertiseKeys (env : Env) (articles : Articles) (ads : Advs) : Except Panic (List Int) :=
  match combineRun env articles ads with
  | Except.error p => Except.error p
  | Except.ok st => Except.ok st.2

/-! ## `fmt.Fprintf` called with a format and no operands (Go standard library) -/

/-- Function `tooLarge` of `fmt`: a width, precision or argument index above one million. -/
def tooLarge (x : Nat) : Bool := decide (x > 1000000)

/-- Function `parsenum` of `fmt`: the decimal number at the front of the text.  It returns the
number, whether a digit was read, and the text left; `none` when the number is too large. -/
def parsenum : List Char → Nat → Bool → Option (Nat × Bool × List Char)
  | [], num, isnum => some (num, isnum, [])
  | c :: cs, num, isnum =>
    if '0' ≤ c ∧ c ≤ '9' then
      if tooLarge num then none else parsenum cs (num * 10 + (c.toNat - '0'.toNat)) true
    else some (num, isnum, c :: cs)

/-- Methods `argNumber` and `parseArgNumber` of `fmt` for an empty operand list: an explicit
argument index `[n]`.  It returns the text left, whether an index was found, and whether
`goodArgNum` is kept (no index can be in range when there is no operand). -/
def argNumber (format : List Char) : List Char × Bool × Bool :=
  match format with
  | '[' :: t =>
    if format.length < 3 then (t, false, false)
    else
      let inner := t.takeWhile (fun c => c ≠ ']')
      if inner.length < t.length then
        let after := t.drop (inner.length + 1)
        match parsenum inner 0 false with
        | some (_, true, []) => (after, true, false)
        | _ => (after, false, false)
      else (t, false, false)
  | _ => (format, false, true)

/-- The state of `fmt.doPrintf` while it processes one verb: the format text left, what was
written for this verb so far, and the flags `afterIndex` and `goodArgNum`. -/
structure VerbState where
  rest : List Char
  out : List Char
  afterIndex : Bool
  goodArgNum : Bool
deriving DecidableEq, Repr

/-- The flags `#`, `0`, `+`, `-` and space after a percent sign are skipped. -/
def flagsPart (afterPercent : List Char) : List Char :=
  afterPercent.dropWhile (fun c => c = '#' ∨ c = '0' ∨ c = '+' ∨ c = '-' ∨ c = ' ')

/-- One call `argNum, i, afterIndex = p.argNumber(argNum, format, i, len(a))`. -/
def indexPart (st : VerbState) : VerbState :=
  { rest := (argNumber st.rest).1, out := st.out, afterIndex := (argNumber st.rest).2.1,
    goodArgNum := st.goodArgNum && (argNumber st.rest).2.2 }

/-- The width: `*` asks for an operand, there is none, `%!(BADWIDTH)` is written; otherwise
an optional number, which after an argument index is a bad use of the index.  A number that
is too large moves to the end of the format. -/
def widthPart (st : VerbState) : VerbState :=
  match st.rest with
  | '*' :: t =>
    { rest := t, out := st.out ++ "%!(BADWIDTH)".toList, afterIndex := false,
      goodArgNum := st.goodArgNum }
  | _ =>
    match parsenum st.rest 0 false with
    | none => { rest := [], out := st.out, afterIndex := st.afterIndex,
                goodArgNum := st.goodArgNum }
    | some (_, widPresent, rest) =>
      { rest := rest, out := st.out, afterIndex := st.afterIndex,
        goodArgNum := st.goodArgNum && !(st.afterIndex && widPresent) }

/-- The precision, read only when a dot is followed by at least one more byte
(`i+1 < end && format[i] == '.'`): an argument index, then `*` (no operand: `%!(BADPREC)` is
written) or an optional number.  A dot that ends the format is left to be the verb. -/
def precisionPart (st : VerbState) : VerbState :=
  match st.rest with
  | '.' :: next :: t =>
    let st1 := indexPart
      { rest := next :: t, out := st.out, afterIndex := st.afterIndex,
        goodArgNum := st.goodArgNum && !st.afterIndex }
    match st1.rest with
    | '*' :: v =>
      { rest := v, out := st1.out ++ "%!(BADPREC)".toList, afterIndex := false,
        goodArgNum := st1.goodArgNum }
    | _ =>
      match parsenum st1.rest 0 false with
      | none => { rest := [], out := st1.out, afterIndex := st1.afterIndex,
                  goodArgNum := st1.goodArgNum }
      | some (_, _, rest) =>
        { rest := rest, out := st1.out, afterIndex := st1.afterIndex,
          goodArgNum := st1.goodArgNum }
  | _ => st

/-- The argument index before the verb, read only `if !afterIndex`. -/
def lastIndexPart (st : VerbState) : VerbState :=
  if st.afterIndex then st else indexPart st

/-- The verb: none at the end of the format (`%!(NOVERB)`); `%` writes a percent sign; any
other verb finds a bad argument index or no operand.  It returns what was written for the
whole verb and the format text left. -/
def verbPart (st : VerbState) : List Char × List Char :=
  match st.rest with
  | [] => (st.out ++ "%!(NOVERB)".toList, [])
  | verb :: rest =>
    if verb = '%' then (st.out ++ ['%'], rest)
    else if !st.goodArgNum then
      (st.out ++ "%!".toList ++ [verb] ++ "(BADINDEX)".toList, rest)
    else (st.out ++ "%!".toList ++ [verb] ++ "(MISSING)".toList, rest)

/-- One pass of the `formatLoop` of `fmt.doPrintf` after a `%` was read, for an empty operand
list: flags, argument index, width, precision, argument index and verb.  It returns what is
written and the format text left. -/
def doVerb (afterPercent : List Char) : List Char × List Char :=
  verbPart (lastIndexPart (precisionPart (widthPart (indexPart
    { rest := flagsPart afterPercent, out := [], afterIndex := false, goodArgNum := true }))))

/-- The `formatLoop` of `fmt.doPrintf` for an empty operand list: text up to the next `%` is
copied, then one verb is processed.  Every pass consumes at least the `%`, so a fuel of the
length of the format plus one is never used up. -/
def doPrintf : Nat → List Char → List Char
  | 0, _ => []
  | fuel + 1, format =>
    let lit := format.takeWhile (fun c => c ≠ '%')
    match format.dropWhile (fun c => c ≠ '%') with
    | [] => lit
    | _ :: afterPercent =>
      let (out, rest) := doVerb afterPercent
      lit ++ out ++ doPrintf fuel rest

/-- What `fmt.Fprintf(w, format)` writes to `w` when it is given no operand. -/
def Fprintf (format : String) : String :=
  String.mk (doPrintf (format.length + 1) format.toList)

/-! ## Decoder and loader (lines 84-97, 214-252) -/

/-- The functions of `encoding/json` the program calls.  `Marshal` returns `(nil, err)` on
failure, here `Except.error err`; `Unmarshal` returns the updated target and its error. -/
structure JsonLib where
  Valid : Bytes → Bool
  UnmarshalArticles : Bytes → Articles → Articles × Option String
  UnmarshalAdvs : Bytes → Advs → Advs × Option String
  MarshalResponse : responseItems → Except String String
  MarshalErrors : appErrors → Except String String

/-- The network: the outcome of `client.Get(url)`, an error or a response whose body
`ioutil.ReadAll` reads into bytes with an optional read error. -/
abbrev Net := String → Except String (Bytes × Option String)

/-- JSONFillable interface of structure types, implemented by `*Articles` and `*Advs`. -/
inductive JSONFillable where
  | articles (a : Articles)
  | advs (a : Advs)
deriving DecidableEq, Repr

/-- Method `fillStructure` of both implementations: `json.Unmarshal(byteContents, &target)`. -/
def JSONFillable.fillStructure (lib : JsonLib) (byteContents : Bytes) :
    JSONFillable → JSONFillable × Option String
  | JSONFillable.articles a =>
    ((JSONFillable.articles (lib.UnmarshalArticles byteContents a).1),
      (lib.UnmarshalArticles byteContents a).2)
  | JSONFillable.advs a =>
    ((JSONFillable.advs (lib.UnmarshalAdvs byteContents a).1),
      (lib.UnmarshalAdvs byteContents a).2)

/-- The text `reflect.TypeOf(structToWrite).String()` of a target. -/
def JSONFillable.typeString : JSONFillable → String
  | JSONFillable.articles _ => "*main.Articles"
  | JSONFillable.advs _ => "*main.Advs"

/-- Getting json via http: `(nil, err)` when `client.Get` fails, else what `ReadAll` returns. -/
def getHTTPBytes (net : Net) (url : String) : Bytes × Option String :=
  match net url with
  | Except.error err => ([], some err)
  | Except.ok r => r

/-- Trying to write data into structure of type JSONFillable with controlling of its result.
It returns the target after the call and the error. -/
def prepareStruct (lib : JsonLib) (bytesContent : Bytes) (fillableStruct : JSONFillable) :
    JSONFillable × Option String :=
  if !lib.Valid bytesContent then
    (fillableStruct, some "Json string is not a valid json")
  else
    match fillableStruct.fillStructure lib bytesContent with
    | (filled, some err) => (filled, some err)
    | (filled, none) => (filled, none)

/-- Writing data to structures with error handling.  There is no `return` after the first
`addError`: `prepareStruct` runs on `r` also when the fetch failed. -/
def writeDataToStruct (net : Net) (lib : JsonLib) (url : String) (structToWrite : JSONFillable)
    (errs : appErrors) : JSONFillable × appErrors :=
  let (r, err) := getHTTPBytes net url
  let errs1 := match err with
    | some e => errs.addError 503
        ("Error of getting content for " ++ structToWrite.typeString ++ " structure: " ++ e)
    | none => errs
  let (filled, err2) := prepareStruct lib r structToWrite
  let errs2 := match err2 with
    | some e => errs1.addError 503
        ("Error of preparing structure " ++ structToWrite.typeString ++ ": " ++ e)
    | none => errs1
  (filled, errs2)

/-! ## The two goroutines of `setStructs` and the shared error collection (lines 190-212) -/

/-- The two goroutines `setStructs` starts: one fills `articles`, one fills `ads`. -/
inductive Routine where
  | articles
  | ads
deriving DecidableEq, Repr

/-- The `addError` calls one run of `writeDataToStruct` makes, in order, as `(code, message)`.
`writeDataToStruct` touches the error collection only through `addError`, so these are the
entries it leaves in a collection that was empty. -/
def addErrorCalls (net : Net) (lib : JsonLib) (url : String) (structToWrite : JSONFillable) :
    List (Int × String) :=
  (writeDataToStruct net lib url structToWrite { ErrorContent := [] }).2.ErrorContent.map
    (fun e => (e.Code, e.Message))

/-- A goroutine of `setStructs` as the shared collection sees it: the `addError` calls it still
has to make, and, while a call is between its read and its write of
`appErrors.ErrorContent`, the slice that call has read. -/
structure Goroutine where
  calls : List (Int × String)
  loaded : Option (List appError)
deriving DecidableEq, Repr

/-- One step of a goroutine on the shared collection.  The statement
`appErrors.ErrorContent = append(appErrors.ErrorContent, errorToAdd)` of `addError` takes two
steps, with no lock around them: it reads the slice, then it writes the slice it read with
the entry appended.  A goroutine with no call left has reached `wg.Done()` and stays put. -/
def Goroutine.step (g : Goroutine) (shared : appErrors) : Goroutine × appErrors :=
  match g.calls, g.loaded with
  | [], _ => (g, shared)
  | call :: rest, none => ({ calls := call :: rest, loaded := some shared.ErrorContent }, shared)
  | (code, err) :: rest, some snapshot =>
    ({ calls := rest, loaded := none },
      appErrors.addError { ErrorContent := snapshot } code err)

/-- The state of `setStructs` between `wg.Add(2)` and `wg.Wait()`: the collection both
goroutines hold a pointer to, and the two goroutines. -/
structure SetStructsState where
  errors : appErrors
  articles : Goroutine
  ads : Goroutine
deriving DecidableEq, Repr

/-- The scheduler lets one of the two goroutines take its next step. -/
def SetStructsState.step (st : SetStructsState) (r : Routine) : SetStructsState :=
  match r with
  | Routine.articles =>
    { errors := (st.articles.step st.errors).2, articles := (st.articles.step st.errors).1,
      ads := st.ads }
  | Routine.ads =>
    { errors := (st.ads.step st.errors).2, articles := st.articles,
      ads := (st.ads.step st.errors).1 }

/-- The state when both goroutines have been started: `new(appErrors)` is empty, the first
goroutine runs `writeDataToStruct(os.Getenv("ARTICLES_ARCHIVE"), articles, appErrors)` on
`new(Articles)`, the second the same for `ADS_ARCHIVE` on `new(Advs)`. -/
def setStructsStart (net : Net) (lib : JsonLib) (env : Env) : SetStructsState :=
  { errors := { ErrorContent := [] },
    articles :=
      { calls := addErrorCalls net lib env.ARTICLES_ARCHIVE
          (JSONFillable.articles { StatusCode := 0, Articles := { Items := [] } }),
        loaded := none },
    ads :=
      { calls := addErrorCalls net lib env.ADS_ARCHIVE
          (JSONFillable.advs { StatusCode := 0, Advs := { Items := [] } }),
        loaded := none } }

/-- The state `setStructs` reaches when the scheduler runs the goroutines in the given order. -/
def setStructsRun (net : Net) (lib : JsonLib) (env : Env) (schedule : List Routine) :
    SetStructsState :=
  schedule.foldl SetStructsState.step (setStructsStart net lib env)

/-- Both goroutines have called `wg.Done()`: `wg.Wait()` returns. -/
def SetStructsState.joined (st : SetStructsState) : Bool :=
  st.articles.calls.isEmpty && st.ads.calls.isEmpty

/-- A schedule that runs the first goroutine to its end, then the second. -/
def sequentialSchedule : List Routine :=
  [Routine.articles, Routine.articles, Routine.articles, Routine.articles,
   Routine.ads, Routine.ads, Routine.ads, Routine.ads]

/-- A schedule in which the first `addError` calls of the two goroutines overlap: both read the
collection before either writes it. -/
def overlappingSchedule : List Routine :=
  [Routine.articles, Routine.ads, Routine.articles, Routine.ads,
   Routine.articles, Routine.articles, Routine.ads, Routine.ads]

/-! ## Handler and start-up check (lines 122-179) -/

/-- For every ADS_FREQUENCY articles we publish one advertising item: the loop, then
`json.Marshal(responseItems{StatusCode: 200, Content: responseItemsSlice})`. -/
def combineContentWithAds (lib : JsonLib) (env : Env) (articles : Articles) (ads : Advs) :
    Except Panic (Except String String) :=
  match responseItemsSlice env articles ads with
  | Except.error p => Except.error p
  | Except.ok slice => Except.ok (lib.MarshalResponse { StatusCode := 200, Content := slice })

/-- The bytes `responseJSON` that `getContent` hands to `fmt.Fprintf`, given what `setStructs`
returned, and the error collection at that moment. -/
def getContentJSON (lib : JsonLib) (env : Env) (loaded : Articles × Advs × appErrors) :
    Except Panic (String × appErrors) :=
  let (articles, ads, errors) := loaded
  let afterCombine : Except Panic (String × appErrors) :=
    if errors.ErrorContent.length = 0 then
      match combineContentWithAds lib env articles ads with
      | Except.error p => Except.error p
      | Except.ok (Except.ok js) => Except.ok (js, errors)
      | Except.ok (Except.error err) =>
        Except.ok ("", errors.addError 502 ("Error while combining content with ads: " ++ err))
    else Except.ok ("", errors)
  match afterCombine with
  | Except.error p => Except.error p
  | Except.ok (responseJSON, errors) =>
    if errors.ErrorContent.length > 0 then
      match lib.MarshalErrors { ErrorContent := errors.ErrorContent } with
      | Except.ok js => Except.ok (js, errors)
      | Except.error _ => Except.ok ("", errors)
    else Except.ok (responseJSON, errors)

/-- Handler for getting mixed content of articles and advertising items: the body written to
the response, `fmt.Fprintf(w, string(responseJSON))`. -/
def getContent (lib : JsonLib) (env : Env) (loaded : Articles × Advs × appErrors) :
    Except Panic String :=
  match getContentJSON lib env loaded with
  | Except.error p => Except.error p
  | Except.ok (responseJSON, _) => Except.ok (Fprintf responseJSON)

/-- Initializing and checking required variables.  `throwFatalError` ends the process through
`log.Fatal`: `Except.error` with the logged text.  `dotenvLoaded` tells whether
`godotenv.Load()` succeeded; `env` is the environment after it. -/
def init (dotenvLoaded : Bool) (env : Env) : Except String Unit :=
  if !dotenvLoaded then Except.error "No .env file found"
  else
    let adsFrequency := (Atoi env.ADS_FREQUENCY).1
    let err := (Atoi env.ADS_FREQUENCY).2
    if adsFrequency = 0 ∨ err ≠ none then
      Except.error "ADS_FREQUENCY can not be converted to integer more then 0"
    else Except.ok ()

/-! ## Closed form of the interleaving, used to state and prove its properties -/

/-- The item `getAdvertise` yields for a key that is a natural number: the advertisement
stored at the key, or the default advertisement when the key is past the end. -/
def adOrDefault (env : Env) (ads : Advs) (k : Nat) : ResponseItem :=
  match ads.Advs.Items[k]? with
  | some item => ResponseItem.advItem item
  | none => ResponseItem.defaultAdv { TypeText := env.ADV_DEFAULT_TEXT }

/-- What one pass of the loop appends for the article at index `i`, for a frequency `n`. -/
def chunk (env : Env) (ads : Advs) (n i : Nat) (article : ArticleItem) : List ResponseItem :=
  ResponseItem.articleItem article ::
    (if (i + 1) % n = 0 then [adOrDefault env ads ((i + 1) / n - 1)] else [])

/-- What the loop appends for the articles from index `i` on. -/
def interleaveFrom (env : Env) (ads : Advs) (n : Nat) : Nat → List ArticleItem → List ResponseItem
  | _, [] => []
  | i, article :: rest => chunk env ads n i article ++ interleaveFrom env ads n (i + 1) rest

/-- The keys the loop logs for the articles from index `i` on. -/
def keysFrom (n : Nat) : Nat → List ArticleItem → List Int
  | _, [] => []
  | i, _ :: rest =>
    (if (i + 1) % n = 0 then [(((i + 1) / n - 1 : Nat) : Int)] else []) ++ keysFrom n (i + 1) rest

/-- The content item carried by a response item, if it is one. -/
def ResponseItem.article? : ResponseItem → Option ArticleItem
  | ResponseItem.articleItem a => some a
  | _ => none

/-- Whether a response item is an inserted one: an advertisement or the default. -/
def ResponseItem.isInserted : ResponseItem → Bool
  | ResponseItem.articleItem _ => false
  | _ => true

/-! ## Concrete inputs -/

/-- A content item with a given title. -/
def sampleArticle (title : String) : ArticleItem :=
  { Articletype := "Article", HarvesterID := "", CerebroScore := 0, URL := "",
    Title := title, CleanImage := "" }

/-- An advertisement with a given title. -/
def sampleAdv (title : String) : AdvItem :=
  { AdvType := "Advertisement", HarvesterID := "", CommercialPartner := "", LogoURL := "",
    CerebroScore := 0, URL := "", Title := title, CleanImage := "" }

/-- An environment with a given `ADS_FREQUENCY`, the default label `Advertisement` and two
feed addresses. -/
def envWith (adsFrequency : String) : Env :=
  { ADS_FREQUENCY := adsFrequency, ADV_DEFAULT_TEXT := "Advertisement",
    ARTICLES_ARCHIVE := "http://127.0.0.1:1/articles", ADS_ARCHIVE := "http://127.0.0.1:1/ads" }

/-- A content feed of 136 items, the size of the test archive. -/
def articles136 : Articles :=
  { StatusCode := 200, Articles := { Items := List.replicate 136 (sampleArticle "t") } }

/-- A content feed of three items. -/
def articles3 : Articles :=
  { StatusCode := 200,
    Articles := { Items := [sampleArticle "a", sampleArticle "b", sampleArticle "c"] } }

/-- An advertisement feed of one item. -/
def ads1 : Advs :=
  { StatusCode := 200, Advs := { Items := [sampleAdv "x"] } }

/-- An advertisement feed of two items. -/
def ads2 : Advs :=
  { StatusCode := 200, Advs := { Items := [sampleAdv "x", sampleAdv "y"] } }

/-- A content feed of one item whose title holds a percent sign. -/
def percentArticles : Articles :=
  { StatusCode := 200, Articles := { Items := [sampleArticle "100%"] } }

/-- The text `json.Marshal` returns for the response built from `percentArticles` with
frequency 5: no insertion, one content item. -/
def percentJSON : String :=
  "\x7b\"httpStatus\":200,\"content\":[\x7b\"type\":\"Article\",\"harvesterId\":\"\"," ++
  "\"cerebro-score\":0,\"url\":\"\",\"title\":\"100%\",\"cleanImage\":\"\"\x7d]\x7d"

/-- An instance of `JsonLib` tabulated at the inputs used below, where it agrees with
`encoding/json`: the empty input is not valid JSON, `null` is valid and decodes to an unchanged
target, and the response of `percentArticles` is marshalled to `percentJSON`. -/
def sampleJson : JsonLib where
  Valid := fun bs => decide (bs = [110, 117, 108, 108])
  UnmarshalArticles := fun _ a => (a, none)
  UnmarshalAdvs := fun _ a => (a, none)
  MarshalResponse := fun r =>
    if r = { StatusCode := 200, Content := [ResponseItem.articleItem (sampleArticle "100%")] }
    then Except.ok percentJSON else Except.error "not tabulated"
  MarshalErrors := fun _ => Except.error "not tabulated"

/-- A network on which every `client.Get` fails. -/
def unreachableNet : Net := fun _ => Except.error "connection refused"

/-! ## Lemmas -/

theorem getAdvertise_natKey (env : Env) (ads : Advs) (k : Nat) :
    ads.Advs.getAdvertise env (k : Int) = Except.ok (adOrDefault env ads k) := by
  unfold AdvItems.getAdvertise adOrDefault
  by_cases h : k < ads.Advs.Items.length
  · have h1 : (k : Int) < (ads.Advs.Items.length : Int) := by exact_mod_cast h
    have h2 : ¬ ((k : Int) < 0) := by omega
    simp [h1, h2, List.getElem?_eq_getElem h]
  · have h1 : ¬ ((k : Int) < (ads.Advs.Items.length : Int)) := by
      intro hc; exact h (by exact_mod_cast hc)
    have h3 : ads.Advs.Items[k]? = none := List.getElem?_eq_none (by omega)
    simp [h1, h3]

theorem tdiv_natCast_pred (n i : Nat) (hn : 1 ≤ n) (hmod : (i + 1) % n = 0) :
    Int.tdiv ((i : Int) + 1) (n : Int) - 1 = (((i + 1) / n - 1 : Nat) : Int) := by
  have hpos : 1 ≤ (i + 1) / n := by
    have hd : n ∣ i + 1 := Nat.dvd_of_mod_eq_zero hmod
    obtain ⟨c, hc⟩ := hd
    rcases Nat.eq_zero_or_pos c with h0 | h0
    · subst h0; omega
    · rw [hc, Nat.mul_div_cancel_left c (by omega)]; exact h0
  have e : ((i : Int) + 1) = ((i + 1 : Nat) : Int) := by push_cast; rfl
  rw [e, ← Int.ofNat_tdiv]
  omega

theorem tmod_natCast (n i : Nat) :
    (Int.tmod ((i : Int) + 1) (n : Int) = 0) ↔ (i + 1) % n = 0 := by
  have e : ((i : Int) + 1) = ((i + 1 : Nat) : Int) := by push_cast; rfl
  rw [e, ← Int.ofNat_tmod]
  exact_mod_cast Iff.rfl

theorem combineLoop_closed (env : Env) (ads : Advs) (n : Nat) (hn : 1 ≤ n) :
    ∀ (l : List ArticleItem) (i : Nat) (acc : List ResponseItem) (keys : List Int),
      combineLoop env (n : Int) ads i l (acc, keys)
        = Except.ok (acc ++ interleaveFrom env ads n i l, keys ++ keysFrom n i l) := by
  intro l
  induction l with
  | nil => intro i acc keys; simp [combineLoop, interleaveFrom, keysFrom]
  | cons a rest ih =>
    intro i acc keys
    have hn0 : ¬ ((n : Int) = 0) := by omega
    by_cases hmod : (i + 1) % n = 0
    · have hm : Int.tmod ((i : Int) + 1) (n : Int) = 0 := (tmod_natCast n i).2 hmod
      simp only [combineLoop, hn0, if_false, hm, if_true, tdiv_natCast_pred n i hn hmod,
        getAdvertise_natKey, ih]
      simp [interleaveFrom, keysFrom, chunk, hmod]
    · have hm : ¬ (Int.tmod ((i : Int) + 1) (n : Int) = 0) := fun h => hmod ((tmod_natCast n i).1 h)
      simp only [combineLoop, hn0, if_false, hm, ih]
      simp [interleaveFrom, keysFrom, chunk, hmod]

theorem interleaveFrom_snoc (env : Env) (ads : Advs) (n : Nat) :
    ∀ (l : List ArticleItem) (i : Nat) (a : ArticleItem),
      interleaveFrom env ads n i (l ++ [a])
        = interleaveFrom env ads n i l ++ chunk env ads n (i + l.length) a := by
  intro l
  induction l with
  | nil => intro i a; simp [interleaveFrom]
  | cons b rest ih =>
    intro i a
    have e : i + 1 + rest.length = i + (rest.length + 1) := by omega
    simp [interleaveFrom, ih, e]

theorem keysFrom_snoc (n : Nat) :
    ∀ (l : List ArticleItem) (i : Nat) (a : ArticleItem),
      keysFrom n i (l ++ [a])
        = keysFrom n i l ++
          (if (i + l.length + 1) % n = 0 then [(((i + l.length + 1) / n - 1 : Nat) : Int)] else []) := by
  intro l
  induction l with
  | nil => intro i a; simp [keysFrom]
  | cons b rest ih =>
    intro i a
    have e : i + 1 + rest.length = i + (rest.length + 1) := by omega
    simp [keysFrom, ih, e]

/-- Arithmetic of the position of a content item: with `m` items before it and one insertion
per `n` of them, its 0-based output index `j = m + m / n` has `j + 1` not a multiple of `n + 1`
and `(j + 1) / (n + 1) = m / n`. -/
theorem article_position (n m : Nat) (hn : 1 ≤ n) :
    (m + m / n + 1) % (n + 1) ≠ 0 ∧ (m + m / n + 1) / (n + 1) = m / n := by
  have hdm : n * (m / n) + m % n = m := Nat.div_add_mod m n
  have hr : m % n < n := Nat.mod_lt m (by omega)
  have e : m + m / n + 1 = (m % n + 1) + (n + 1) * (m / n) := by
    have : (n + 1) * (m / n) = n * (m / n) + m / n := by ring
    omega
  rw [e]
  constructor
  · rw [Nat.add_mul_mod_self_left, Nat.mod_eq_of_lt (by omega)]; omega
  · rw [Nat.add_mul_div_left _ _ (by omega : 0 < n + 1), Nat.div_eq_of_lt (by omega)]; omega

/-- Arithmetic of the position of an inserted item: after the content item of index `m` with
`n ∣ m + 1`, its 0-based output index `j = m + m / n + 1` has `j + 1 = (n + 1) * ((m + 1) / n)`. -/
theorem insertion_position (n m : Nat) (hn : 1 ≤ n) (hmod : (m + 1) % n = 0) :
    (m + m / n + 1 + 1) % (n + 1) = 0 ∧ (m + m / n + 1 + 1) / (n + 1) = (m + 1) / n := by
  have hsucc : (m + 1) / n = m / n + 1 := by
    rw [Nat.succ_div, if_pos (Nat.dvd_of_mod_eq_zero hmod)]
  have hdm : n * ((m + 1) / n) = m + 1 := Nat.mul_div_cancel' (Nat.dvd_of_mod_eq_zero hmod)
  have e : m + m / n + 1 + 1 = (n + 1) * ((m + 1) / n) := by
    have : (n + 1) * ((m + 1) / n) = n * ((m + 1) / n) + (m + 1) / n := by ring
    omega
  rw [e]
  constructor
  · exact Nat.mul_mod_right _ _
  · exact Nat.mul_div_cancel_left _ (by omega)

theorem interleave_length (env : Env) (ads : Advs) (n : Nat) (l : List ArticleItem) :
    (interleaveFrom env ads n 0 l).length = l.length + l.length / n := by
  induction l using List.reverseRecOn with
  | nil => simp [interleaveFrom]
  | append_singleton l a ih =>
    rw [interleaveFrom_snoc, List.length_append, ih]
    simp only [chunk, Nat.zero_add, List.length_cons, List.length_append, List.length_nil]
    rw [Nat.succ_div l.length n]
    by_cases h : (l.length + 1) % n = 0
    · have hd : n ∣ l.length + 1 := Nat.dvd_of_mod_eq_zero h
      simp [h, hd]; omega
    · have hd : ¬ n ∣ l.length + 1 := fun hd => h (Nat.mod_eq_zero_of_dvd hd)
      simp [h, hd]; omega

theorem interleave_articles (env : Env) (ads : Advs) (n : Nat) (l : List ArticleItem) :
    (interleaveFrom env ads n 0 l).filterMap ResponseItem.article? = l := by
  induction l using List.reverseRecOn with
  | nil => simp [interleaveFrom]
  | append_singleton l a ih =>
    rw [interleaveFrom_snoc, List.filterMap_append, ih]
    by_cases h : (l.length + 1) % n = 0
    · simp [chunk, h, ResponseItem.article?, adOrDefault]
      cases ads.Advs.Items[(l.length + 1) / n - 1]? <;> simp
    · simp [chunk, h, ResponseItem.article?]

theorem articleItem_isInserted (a : ArticleItem) :
    (ResponseItem.articleItem a).isInserted = false := rfl

theorem adOrDefault_isInserted (env : Env) (ads : Advs) (k : Nat) :
    (adOrDefault env ads k).isInserted = true := by
  unfold adOrDefault
  cases ads.Advs.Items[k]? <;> rfl

theorem adOrDefault_article (env : Env) (ads : Advs) (k : Nat) :
    (adOrDefault env ads k).article? = none := by
  unfold adOrDefault
  cases ads.Advs.Items[k]? <;> rfl

theorem interleave_insertions (env : Env) (ads : Advs) (n : Nat) (l : List ArticleItem) :
    (interleaveFrom env ads n 0 l).filter ResponseItem.isInserted
      = (List.range (l.length / n)).map (adOrDefault env ads) := by
  induction l using List.reverseRecOn with
  | nil => simp [interleaveFrom]
  | append_singleton l a ih =>
    rw [interleaveFrom_snoc, List.filter_append, ih, List.length_append, List.length_singleton,
      Nat.succ_div l.length n]
    by_cases h : (l.length + 1) % n = 0
    · have hd : n ∣ l.length + 1 := Nat.dvd_of_mod_eq_zero h
      have hk : (l.length + 1) / n - 1 = l.length / n := by
        rw [Nat.succ_div, if_pos hd]; exact Nat.add_sub_cancel _ _
      simp [chunk, h, hd, articleItem_isInserted, adOrDefault_isInserted, List.range_succ, hk]
    · have hd : ¬ n ∣ l.length + 1 := fun hd => h (Nat.mod_eq_zero_of_dvd hd)
      simp [chunk, h, hd, articleItem_isInserted]

theorem keysFrom_range (n : Nat) (l : List ArticleItem) :
    keysFrom n 0 l = (List.range (l.length / n)).map (fun (k : Nat) => (k : Int)) := by
  induction l using List.reverseRecOn with
  | nil => simp [keysFrom]
  | append_singleton l a ih =>
    rw [keysFrom_snoc, ih, List.length_append, List.length_singleton, Nat.succ_div l.length n]
    by_cases h : (l.length + 1) % n = 0
    · have hd : n ∣ l.length + 1 := Nat.dvd_of_mod_eq_zero h
      have hk : (l.length + 1) / n - 1 = l.length / n := by
        rw [Nat.succ_div, if_pos hd]; exact Nat.add_sub_cancel _ _
      simp [h, hd, List.range_succ, hk]
    · have hd : ¬ n ∣ l.length + 1 := fun hd => h (Nat.mod_eq_zero_of_dvd hd)
      simp [h, hd]

theorem interleave_getElem (env : Env) (ads : Advs) (n : Nat) (hn : 1 ≤ n)
    (l : List ArticleItem) :
    ∀ j, j < (interleaveFrom env ads n 0 l).length →
      (interleaveFrom env ads n 0 l)[j]? =
        if (j + 1) % (n + 1) = 0 then some (adOrDefault env ads ((j + 1) / (n + 1) - 1))
        else (l[j - (j + 1) / (n + 1)]?).map ResponseItem.articleItem := by
  induction l using List.reverseRecOn with
  | nil => intro j hj; simp [interleaveFrom] at hj
  | append_singleton l a ih =>
    intro j hj
    rw [interleaveFrom_snoc] at hj ⊢
    have hL : (interleaveFrom env ads n 0 l).length = l.length + l.length / n :=
      interleave_length env ads n l
    by_cases hlt : j < (interleaveFrom env ads n 0 l).length
    · rw [List.getElem?_append_left hlt, ih j hlt]
      by_cases hm : (j + 1) % (n + 1) = 0
      · simp [hm]
      · have hsome := ih j hlt
        rw [List.getElem?_eq_getElem hlt, if_neg hm] at hsome
        have hidx : j - (j + 1) / (n + 1) < l.length := by
          by_contra hc
          rw [List.getElem?_eq_none (by omega)] at hsome
          simp at hsome
        simp [hm, List.getElem?_append_left hidx]
    · have hge : (interleaveFrom env ads n 0 l).length ≤ j := by omega
      rw [List.getElem?_append_right hge]
      rw [List.length_append] at hj
      simp only [Nat.zero_add] at hj ⊢
      obtain ⟨hp1, hp2⟩ := article_position n l.length hn
      by_cases hj0 : j = l.length + l.length / n
      · subst hj0
        have e0 : l.length + l.length / n - (interleaveFrom env ads n 0 l).length = 0 := by omega
        have e1 : l.length + l.length / n - l.length / n = l.length := by omega
        rw [e0, if_neg hp1, hp2, e1]
        simp [chunk]
      · by_cases hmod : (l.length + 1) % n = 0
        · obtain ⟨hq1, hq2⟩ := insertion_position n l.length hn hmod
          have hlen : (chunk env ads n l.length a).length = 2 := by simp [chunk, hmod]
          have hj1 : j = l.length + l.length / n + 1 := by omega
          subst hj1
          have e0 : l.length + l.length / n + 1 - (interleaveFrom env ads n 0 l).length = 1 := by
            omega
          rw [e0, if_pos hq1, hq2]
          simp [chunk, hmod]
        · have hlen : (chunk env ads n l.length a).length = 1 := by simp [chunk, hmod]
          omega

theorem combineRun_closed (env : Env) (articles : Articles) (ads : Advs)
    (hN : 1 ≤ (Atoi env.ADS_FREQUENCY).1) :
    combineRun env articles ads
      = Except.ok (interleaveFrom env ads (Atoi env.ADS_FREQUENCY).1.toNat 0 articles.Articles.Items,
          keysFrom (Atoi env.ADS_FREQUENCY).1.toNat 0 articles.Articles.Items) := by
  have hcast : (((Atoi env.ADS_FREQUENCY).1.toNat : Nat) : Int) = (Atoi env.ADS_FREQUENCY).1 :=
    Int.toNat_of_nonneg (by omega)
  have hn : 1 ≤ (Atoi env.ADS_FREQUENCY).1.toNat := by omega
  have h := combineLoop_closed env ads _ hn articles.Articles.Items 0 [] []
  rw [hcast] at h
  simpa [combineRun] using h

theorem responseItemsSlice_closed (env : Env) (articles : Articles) (ads : Advs)
    (hN : 1 ≤ (Atoi env.ADS_FREQUENCY).1) :
    responseItemsSlice env articles ads
      = Except.ok (interleaveFrom env ads (Atoi env.ADS_FREQUENCY).1.toNat 0
          articles.Articles.Items) := by
  simp [responseItemsSlice, combineRun_closed env articles ads hN]

/-! ## The interleaver: item count, positions, choice of advertisement, safety -/

/-- C1.  For every content sequence of length `M`, every advertisement sequence and every
frequency `N ≥ 1` (the value `strconv.Atoi` gives for `ADS_FREQUENCY`), the item sequence built
by `combineContentWithAds` exists (no panic), has exactly `M + M / N` items, and exactly
`M / N` of them are inserted items. -/
theorem combineContentWithAds_item_count (env : Env) (articles : Articles) (ads : Advs)
    (hN : 1 ≤ (Atoi env.ADS_FREQUENCY).1) :
    ∃ items, responseItemsSlice env articles ads = Except.ok items ∧
      items.length = articles.Articles.Items.length
        + articles.Articles.Items.length / (Atoi env.ADS_FREQUENCY).1.toNat ∧
      (items.filter ResponseItem.isInserted).length
        = articles.Articles.Items.length / (Atoi env.ADS_FREQUENCY).1.toNat := by
  refine ⟨_, responseItemsSlice_closed env articles ads hN, ?_, ?_⟩
  · exact interleave_length env ads _ _
  · rw [interleave_insertions]; simp

/-- C2.  For every content sequence, advertisement sequence and frequency `N ≥ 1`, the output of
`combineContentWithAds` is the content items, each followed by one inserted item exactly when
its 1-indexed position is a multiple of `N` (`interleaveFrom`); dropping the inserted items
gives back the content in its original order; and the item at 0-based output index `j` is an
inserted item exactly when `j + 1` is a multiple of `N + 1`, and otherwise is the content item
at index `j - (j + 1) / (N + 1)`. -/
theorem combineContentWithAds_positions (env : Env) (articles : Articles) (ads : Advs)
    (hN : 1 ≤ (Atoi env.ADS_FREQUENCY).1) :
    ∃ items, responseItemsSlice env articles ads = Except.ok items ∧
      items = interleaveFrom env ads (Atoi env.ADS_FREQUENCY).1.toNat 0 articles.Articles.Items ∧
      items.filterMap ResponseItem.article? = articles.Articles.Items ∧
      ∀ j item, items[j]? = some item →
        (item.isInserted = true ↔ (j + 1) % ((Atoi env.ADS_FREQUENCY).1.toNat + 1) = 0) ∧
        ((j + 1) % ((Atoi env.ADS_FREQUENCY).1.toNat + 1) ≠ 0 →
          ∃ a, articles.Articles.Items[j - (j + 1) / ((Atoi env.ADS_FREQUENCY).1.toNat + 1)]?
                = some a ∧ item = ResponseItem.articleItem a) := by
  have hn : 1 ≤ (Atoi env.ADS_FREQUENCY).1.toNat := by omega
  refine ⟨_, responseItemsSlice_closed env articles ads hN, rfl,
    interleave_articles env ads _ _, ?_⟩
  intro j item hj
  have hlt : j < (interleaveFrom env ads (Atoi env.ADS_FREQUENCY).1.toNat 0
      articles.Articles.Items).length := by
    by_contra hc
    rw [List.getElem?_eq_none (by omega)] at hj
    exact Option.noConfusion hj
  have h := interleave_getElem env ads _ hn articles.Articles.Items j hlt
  rw [hj] at h
  have hcontent : (j + 1) % ((Atoi env.ADS_FREQUENCY).1.toNat + 1) ≠ 0 →
      ∃ a, articles.Articles.Items[j - (j + 1) / ((Atoi env.ADS_FREQUENCY).1.toNat + 1)]?
            = some a ∧ item = ResponseItem.articleItem a := by
    intro hm
    rw [if_neg hm] at h
    cases hget : articles.Articles.Items[j - (j + 1) / ((Atoi env.ADS_FREQUENCY).1.toNat + 1)]? with
    | none => rw [hget] at h; exact Option.noConfusion h
    | some a => rw [hget] at h; exact ⟨a, rfl, Option.some.inj h⟩
  refine ⟨⟨?_, ?_⟩, hcontent⟩
  · intro hins
    by_contra hm
    obtain ⟨a, _, ha⟩ := hcontent hm
    rw [ha, articleItem_isInserted] at hins
    exact Bool.noConfusion hins
  · intro hm
    rw [if_pos hm] at h
    rw [Option.some.inj h]
    exact adOrDefault_isInserted env ads _

/-- C3.  For every content sequence of length `M`, advertisement sequence and frequency `N ≥ 1`,
the item inserted at the `k`-th insertion point (`1 ≤ k ≤ M / N`), which is the `k`-th inserted
item of the output and sits at output index `k * (N + 1) - 1`, is the advertisement at index
`k - 1` when there is one, and otherwise the default advertisement carrying
`ADV_DEFAULT_TEXT`. -/
theorem combineContentWithAds_kth_insertion (env : Env) (articles : Articles) (ads : Advs)
    (hN : 1 ≤ (Atoi env.ADS_FREQUENCY).1) :
    ∃ items, responseItemsSlice env articles ads = Except.ok items ∧
      ∀ k, 1 ≤ k → k ≤ articles.Articles.Items.length / (Atoi env.ADS_FREQUENCY).1.toNat →
        ∃ inserted, (items.filter ResponseItem.isInserted)[k - 1]? = some inserted ∧
          items[k * ((Atoi env.ADS_FREQUENCY).1.toNat + 1) - 1]? = some inserted ∧
          (∀ ad, ads.Advs.Items[k - 1]? = some ad → inserted = ResponseItem.advItem ad) ∧
          (ads.Advs.Items.length ≤ k - 1 →
            inserted = ResponseItem.defaultAdv { TypeText := env.ADV_DEFAULT_TEXT }) := by
  have hn : 1 ≤ (Atoi env.ADS_FREQUENCY).1.toNat := by omega
  refine ⟨_, responseItemsSlice_closed env articles ads hN, ?_⟩
  intro k hk1 hk2
  generalize (Atoi env.ADS_FREQUENCY).1.toNat = n at hn hk2 ⊢
  refine ⟨adOrDefault env ads (k - 1), ?_, ?_, ?_, ?_⟩
  · rw [interleave_insertions, List.getElem?_map,
      List.getElem?_range (by omega : k - 1 < articles.Articles.Items.length / n)]
    rfl
  · have hkn : k * n ≤ articles.Articles.Items.length :=
      (Nat.le_div_iff_mul_le (by omega)).1 hk2
    have hmul : k * (n + 1) = k * n + k := by ring
    have hlt : k * (n + 1) - 1 < (interleaveFrom env ads n 0 articles.Articles.Items).length := by
      rw [interleave_length]; omega
    have hsucc : k * (n + 1) - 1 + 1 = k * (n + 1) := by omega
    rw [interleave_getElem env ads n hn _ _ hlt, hsucc,
      if_pos (Nat.mul_mod_left k (n + 1)), Nat.mul_div_cancel k (by omega : 0 < n + 1)]
  · intro ad had
    simp [adOrDefault, had]
  · intro hlen
    simp [adOrDefault, List.getElem?_eq_none hlen]

/-- C10.  For every content sequence of length `M`, every advertisement sequence and every
frequency `N ≥ 1`, `combineContentWithAds` runs its loop to the end without a panic (no
division by zero, no index out of range), every key it passes to `getAdvertise` satisfies
`0 ≤ key < M / N`, there are `M / N` such calls, and `getAdvertise` returns an item for
each of these keys. -/
theorem combineContentWithAds_keys_in_range (env : Env) (articles : Articles) (ads : Advs)
    (hN : 1 ≤ (Atoi env.ADS_FREQUENCY).1) :
    ∃ items keys, combineRun env articles ads = Except.ok (items, keys) ∧
      keys.length = articles.Articles.Items.length / (Atoi env.ADS_FREQUENCY).1.toNat ∧
      ∀ key ∈ keys,
        0 ≤ key ∧
        key < ((articles.Articles.Items.length / (Atoi env.ADS_FREQUENCY).1.toNat : Nat) : Int) ∧
        ∃ item, ads.Advs.getAdvertise env key = Except.ok item := by
  refine ⟨_, _, combineRun_closed env articles ads hN, ?_, ?_⟩
  · rw [keysFrom_range]; simp
  · intro key hkey
    rw [keysFrom_range] at hkey
    obtain ⟨k, hk, rfl⟩ := List.mem_map.1 hkey
    have hk2 := List.mem_range.1 hk
    refine ⟨by omega, by exact_mod_cast hk2, _, getAdvertise_natKey env ads k⟩

/-! ## The claims at concrete inputs -/

theorem combineContentWithAds_item_count_witness :
    1 ≤ (Atoi (envWith "5").ADS_FREQUENCY).1 ∧
    ∃ items, responseItemsSlice (envWith "5") articles136 ads1 = Except.ok items ∧
      items.length = 163 ∧ (items.filter ResponseItem.isInserted).length = 27 := by
  have e : (Atoi (envWith "5").ADS_FREQUENCY).1 = 5 := by decide
  have h := combineContentWithAds_item_count (envWith "5") articles136 ads1 (by decide)
  rw [e] at h
  exact ⟨by decide, by simpa [articles136] using h⟩

theorem combineContentWithAds_positions_witness :
    1 ≤ (Atoi (envWith "1").ADS_FREQUENCY).1 ∧
    ∃ items, responseItemsSlice (envWith "1") articles3 ads1 = Except.ok items ∧
      items.filterMap ResponseItem.article? = articles3.Articles.Items :=
  ⟨by decide,
    (combineContentWithAds_positions (envWith "1") articles3 ads1 (by decide)).elim
      (fun items h => ⟨items, h.1, h.2.2.1⟩)⟩

theorem combineContentWithAds_kth_insertion_witness :
    1 ≤ (Atoi (envWith "1").ADS_FREQUENCY).1 ∧
    ∃ items, responseItemsSlice (envWith "1") articles3 ads1 = Except.ok items ∧
      (items.filter ResponseItem.isInserted)[0]? = some (ResponseItem.advItem (sampleAdv "x")) ∧
      (items.filter ResponseItem.isInserted)[1]?
        = some (ResponseItem.defaultAdv { TypeText := "Advertisement" }) ∧
      (items.filter ResponseItem.isInserted)[2]?
        = some (ResponseItem.defaultAdv { TypeText := "Advertisement" }) := by
  have e : (Atoi (envWith "1").ADS_FREQUENCY).1.toNat = 1 := by decide
  obtain ⟨items, hrun, h⟩ :=
    combineContentWithAds_kth_insertion (envWith "1") articles3 ads1 (by decide)
  rw [e] at h
  refine ⟨by decide, items, hrun, ?_, ?_, ?_⟩
  · obtain ⟨ins, h1, _, h3, _⟩ := h 1 (by decide) (by decide)
    rw [h1, h3 (sampleAdv "x") (by decide)]
  · obtain ⟨ins, h1, _, _, h4⟩ := h 2 (by decide) (by decide)
    rw [h1, h4 (by decide)]; rfl
  · obtain ⟨ins, h1, _, _, h4⟩ := h 3 (by decide) (by decide)
    rw [h1, h4 (by decide)]; rfl

theorem combineContentWithAds_keys_in_range_witness :
    1 ≤ (Atoi (envWith "1").ADS_FREQUENCY).1 ∧
    ∃ items keys, combineRun (envWith "1") articles3 ads1 = Except.ok (items, keys) ∧
      keys.length = 3 ∧ ∀ key ∈ keys, 0 ≤ key ∧ key < 3 := by
  have e : (Atoi (envWith "1").ADS_FREQUENCY).1.toNat = 1 := by decide
  obtain ⟨items, keys, hrun, hlen, h⟩ :=
    combineContentWithAds_keys_in_range (envWith "1") articles3 ads1 (by decide)
  rw [e] at hlen h
  exact ⟨by decide, items, keys, hrun, by simpa [articles3] using hlen,
    fun key hkey => ⟨(h key hkey).1, by simpa [articles3] using (h key hkey).2.1⟩⟩

/-- The scenario of C3 run on the code: one advertisement, frequency 1, three content items. -/
theorem responseItemsSlice_scenario :
    responseItemsSlice (envWith "1") articles3 ads1
      = Except.ok [ResponseItem.articleItem (sampleArticle "a"),
          ResponseItem.advItem (sampleAdv "x"),
          ResponseItem.articleItem (sampleArticle "b"),
          ResponseItem.defaultAdv { TypeText := "Advertisement" },
          ResponseItem.articleItem (sampleArticle "c"),
          ResponseItem.defaultAdv { TypeText := "Advertisement" }] := by
  rfl

/-! ## `getAdvertise` -/

theorem getAdvertise_found (env : Env) (advItems : AdvItems) (k : Nat) (ad : AdvItem)
    (h : advItems.Items[k]? = some ad) :
    advItems.getAdvertise env (k : Int) = Except.ok (ResponseItem.advItem ad) := by
  have hlt : k < advItems.Items.length := by
    by_contra hc
    rw [List.getElem?_eq_none (by omega)] at h
    exact Option.noConfusion h
  have h1 : (k : Int) < (advItems.Items.length : Int) := by exact_mod_cast hlt
  have h2 : ¬ ((k : Int) < 0) := by omega
  simp [AdvItems.getAdvertise, h1, h2, h]

theorem getAdvertise_past_end (env : Env) (advItems : AdvItems) (key : Int)
    (h : (advItems.Items.length : Int) ≤ key) :
    advItems.getAdvertise env key
      = Except.ok (ResponseItem.defaultAdv { TypeText := env.ADV_DEFAULT_TEXT }) := by
  have h1 : ¬ (key < (advItems.Items.length : Int)) := by omega
  simp [AdvItems.getAdvertise, h1]

theorem getAdvertise_negative (env : Env) (advItems : AdvItems) (key : Int) (h : key < 0) :
    advItems.getAdvertise env key = Except.error Panic.indexOutOfRange := by
  have h1 : key < (advItems.Items.length : Int) := by omega
  simp [AdvItems.getAdvertise, h1, h]

/-- C8 (defect in the code).  On a collection of two advertisements `getAdvertise` returns the
stored advertisement at key 1 and the default advertisement with the configured label at
key 5, but at key -1, where nothing is stored either, it does not return the default
advertisement: the index expression panics. -/
theorem getAdvertise_negative_key_panics :
    ads2.Advs.getAdvertise (envWith "5") 1 = Except.ok (ResponseItem.advItem (sampleAdv "y")) ∧
    ads2.Advs.getAdvertise (envWith "5") 5
      = Except.ok (ResponseItem.defaultAdv { TypeText := "Advertisement" }) ∧
    ads2.Advs.getAdvertise (envWith "5") (-1) = Except.error Panic.indexOutOfRange :=
  ⟨rfl, rfl, rfl⟩

/-! ## Start-up check -/

theorem init_ok_iff (dotenvLoaded : Bool) (env : Env) :
    init dotenvLoaded env = Except.ok () ↔
      dotenvLoaded = true ∧ (Atoi env.ADS_FREQUENCY).1 ≠ 0 ∧ (Atoi env.ADS_FREQUENCY).2 = none := by
  unfold init
  cases dotenvLoaded
  · simp
  · by_cases h0 : (Atoi env.ADS_FREQUENCY).1 = 0
    · simp [h0]
    · by_cases h1 : (Atoi env.ADS_FREQUENCY).2 = none
      · simp [h0, h1]
      · simp [h0, h1]

theorem init_fatal_of_zero_or_error (dotenvLoaded : Bool) (env : Env)
    (h : (Atoi env.ADS_FREQUENCY).1 = 0 ∨ (Atoi env.ADS_FREQUENCY).2 ≠ none) :
    ∃ msg, init dotenvLoaded env = Except.error msg := by
  unfold init
  cases dotenvLoaded
  · exact ⟨_, rfl⟩
  · exact ⟨"ADS_FREQUENCY can not be converted to integer more then 0", by simp [h]⟩

theorem Atoi_missing : Atoi "" = (0, some NumError.ErrSyntax) := by decide

/-- C6 (defect in the code).  With `ADS_FREQUENCY=-1` the value parses without error to `-1`,
which is not `0`: `init` raises no fatal error and the process starts serving, although the
frequency is negative.  The handler then panics in `combineContentWithAds` on the first
content item. -/
theorem init_accepts_negative_frequency :
    Atoi (envWith "-1").ADS_FREQUENCY = (-1, none) ∧
    init true (envWith "-1") = Except.ok () ∧
    responseItemsSlice (envWith "-1") articles3 ads1 = Except.error Panic.indexOutOfRange :=
  ⟨by decide, rfl, rfl⟩

/-! ## Decoder and loader -/

/-- C7.  For every byte sequence that `json.Valid` rejects and every target (`Articles` or
`Advs`), `prepareStruct` returns the error `Json string is not a valid json` and the target
unchanged; the result is the same whatever the `Unmarshal` functions are, so `fillStructure`
takes no part in it. -/
theorem prepareStruct_invalid_json (lib : JsonLib) (bytesContent : Bytes)
    (fillableStruct : JSONFillable) (h : lib.Valid bytesContent = false) :
    prepareStruct lib bytesContent fillableStruct
      = (fillableStruct, some "Json string is not a valid json") ∧
    ∀ (ua : Bytes → Articles → Articles × Option String)
      (uv : Bytes → Advs → Advs × Option String),
      prepareStruct { lib with UnmarshalArticles := ua, UnmarshalAdvs := uv } bytesContent
          fillableStruct
        = (fillableStruct, some "Json string is not a valid json") := by
  constructor
  · simp [prepareStruct, h]
  · intro ua uv
    simp [prepareStruct, h]

theorem prepareStruct_invalid_json_witness :
    sampleJson.Valid [123] = false ∧
    prepareStruct sampleJson [123] (JSONFillable.articles articles3)
      = (JSONFillable.articles articles3, some "Json string is not a valid json") ∧
    prepareStruct sampleJson [123] (JSONFillable.advs ads1)
      = (JSONFillable.advs ads1, some "Json string is not a valid json") :=
  ⟨by decide,
    (prepareStruct_invalid_json sampleJson [123] (JSONFillable.articles articles3) (by decide)).1,
    (prepareStruct_invalid_json sampleJson [123] (JSONFillable.advs ads1) (by decide)).1⟩

/-- C5 (defect in the code).  When `client.Get` fails for a feed, `writeDataToStruct` adds not
one but two entries to the error collection: the fetch error and, because `prepareStruct`
still runs on the absent body, a `not a valid json` error.  Both have code 503 and name the
structure; the target is left unchanged. -/
theorem writeDataToStruct_fetch_failure (net : Net) (lib : JsonLib) (url : String)
    (structToWrite : JSONFillable) (errs : appErrors) (e : String)
    (hget : net url = Except.error e) (hvalid : lib.Valid [] = false) :
    writeDataToStruct net lib url structToWrite errs
      = (structToWrite,
          { ErrorContent := errs.ErrorContent ++
              [{ Code := 503,
                 Message := "Error of getting content for " ++ structToWrite.typeString
                   ++ " structure: " ++ e },
               { Code := 503,
                 Message := "Error of preparing structure " ++ structToWrite.typeString
                   ++ ": " ++ "Json string is not a valid json" }] }) := by
  simp [writeDataToStruct, getHTTPBytes, hget, prepareStruct, hvalid, appErrors.addError]

theorem writeDataToStruct_fetch_failure_witness :
    unreachableNet "http://feed.invalid/articles" = Except.error "connection refused" ∧
    sampleJson.Valid [] = false ∧
    (writeDataToStruct unreachableNet sampleJson "http://feed.invalid/articles"
        (JSONFillable.articles { StatusCode := 0, Articles := { Items := [] } })
        { ErrorContent := [] }).2.ErrorContent.length = 2 := by
  refine ⟨rfl, by decide, ?_⟩
  rw [writeDataToStruct_fetch_failure unreachableNet sampleJson "http://feed.invalid/articles"
    _ _ "connection refused" rfl (by decide)]
  rfl

/-! ## Handler -/

theorem parsenum_length :
    ∀ (cs : List Char) (num : Nat) (isnum : Bool) (r : Nat × Bool × List Char),
      parsenum cs num isnum = some r → r.2.2.length ≤ cs.length := by
  intro cs
  induction cs with
  | nil =>
    intro num isnum r h
    simp only [parsenum, Option.some.injEq] at h
    subst h
    simp
  | cons c cs ih =>
    intro num isnum r h
    unfold parsenum at h
    split at h
    · split at h
      · exact Option.noConfusion h
      · have := ih _ _ _ h
        simp only [List.length_cons]
        omega
    · simp only [Option.some.injEq] at h
      subst h
      simp

theorem argNumber_length (format : List Char) :
    (argNumber format).1.length ≤ format.length := by
  unfold argNumber
  split
  · rename_i t
    split
    · simp
    · dsimp only
      split
      · split <;> simp <;> omega
      · simp
  · simp

theorem indexPart_length (st : VerbState) : (indexPart st).rest.length ≤ st.rest.length :=
  argNumber_length st.rest

theorem widthPart_length (st : VerbState) : (widthPart st).rest.length ≤ st.rest.length := by
  unfold widthPart
  split
  · rename_i t h
    rw [h]; simp
  · split
    · simp
    · rename_i h
      exact parsenum_length _ _ _ _ h

theorem precisionPart_length (st : VerbState) :
    (precisionPart st).rest.length ≤ st.rest.length := by
  unfold precisionPart
  split
  · rename_i next t h
    rw [h]
    have h1 := indexPart_length
      { rest := next :: t, out := st.out, afterIndex := st.afterIndex,
        goodArgNum := st.goodArgNum && !st.afterIndex }
    simp only [List.length_cons] at h1 ⊢
    split
    · rename_i v hv
      rw [hv] at h1
      simp only [List.length_cons] at h1 ⊢
      omega
    · split
      · simp
      · rename_i hp
        have h2 := parsenum_length _ _ _ _ hp
        simp only at h2 ⊢
        omega
  · exact Nat.le_refl _

theorem lastIndexPart_length (st : VerbState) :
    (lastIndexPart st).rest.length ≤ st.rest.length := by
  unfold lastIndexPart
  split
  · exact Nat.le_refl _
  · exact indexPart_length st

theorem verbPart_length (st : VerbState) : (verbPart st).2.length ≤ st.rest.length := by
  unfold verbPart
  split
  · simp
  · rename_i verb rest h
    rw [h]
    split
    · simp
    · split <;> simp

theorem doVerb_length (afterPercent : List Char) :
    (doVerb afterPercent).2.length ≤ afterPercent.length := by
  unfold doVerb
  have h0 : (flagsPart afterPercent).length ≤ afterPercent.length :=
    (List.dropWhile_sublist _).length_le
  have h1 := indexPart_length
    { rest := flagsPart afterPercent, out := [], afterIndex := false, goodArgNum := true }
  have h2 := widthPart_length (indexPart
    { rest := flagsPart afterPercent, out := [], afterIndex := false, goodArgNum := true })
  have h3 := precisionPart_length (widthPart (indexPart
    { rest := flagsPart afterPercent, out := [], afterIndex := false, goodArgNum := true }))
  have h4 := lastIndexPart_length (precisionPart (widthPart (indexPart
    { rest := flagsPart afterPercent, out := [], afterIndex := false, goodArgNum := true })))
  have h5 := verbPart_length (lastIndexPart (precisionPart (widthPart (indexPart
    { rest := flagsPart afterPercent, out := [], afterIndex := false, goodArgNum := true }))))
  simp only at h1
  omega

/-- The fuel of `doPrintf` is never used up: any fuel above the length of the format gives
the same text. -/
theorem doPrintf_fuel :
    ∀ (fuel1 fuel2 : Nat) (format : List Char),
      format.length < fuel1 → format.length < fuel2 →
        doPrintf fuel1 format = doPrintf fuel2 format := by
  intro fuel1
  induction fuel1 with
  | zero => intro fuel2 format h1; omega
  | succ a ih =>
    intro fuel2 format h1 h2
    cases fuel2 with
    | zero => omega
    | succ b =>
      unfold doPrintf
      have hdrop : (format.dropWhile (fun c => decide (c ≠ '%'))).length ≤ format.length :=
        (List.dropWhile_sublist _).length_le
      cases hd : format.dropWhile (fun c => decide (c ≠ '%')) with
      | nil => rfl
      | cons c afterPercent =>
        rw [hd] at hdrop
        have hv := doVerb_length afterPercent
        simp only [List.length_cons] at hdrop
        have e := ih b (doVerb afterPercent).2 (by omega) (by omega)
        simp only [e]


theorem doPrintf_of_no_percent (fuel : Nat) (format : List Char) (h : '%' ∉ format) :
    doPrintf (fuel + 1) format = format := by
  have hall : ∀ c ∈ format, (decide (c ≠ '%')) = true := by
    intro c hc
    simp only [decide_eq_true_eq]
    intro hce
    exact h (hce ▸ hc)
  have hdrop : format.dropWhile (fun c => decide (c ≠ '%')) = [] :=
    List.dropWhile_eq_nil_iff.2 hall
  have htake : format.takeWhile (fun c => decide (c ≠ '%')) = format :=
    List.takeWhile_eq_self_iff.2 hall
  simp only [doPrintf, hdrop, htake]

theorem Fprintf_of_no_percent (format : String) (h : '%' ∉ format.toList) :
    Fprintf format = format := by
  unfold Fprintf
  rw [doPrintf_of_no_percent _ _ h]
  rfl

/-- When the loader reported an error, the bytes handed to `fmt.Fprintf` are the marshalled
error collection, whatever the two feeds and the environment are: the interleaver does not
run and no content is emitted. -/
theorem getContentJSON_of_errors (lib : JsonLib) (env : Env) (articles : Articles) (ads : Advs)
    (errors : appErrors) (h : errors.ErrorContent ≠ []) :
    getContentJSON lib env (articles, ads, errors)
      = Except.ok ((match lib.MarshalErrors { ErrorContent := errors.ErrorContent } with
          | Except.ok js => js
          | Except.error _ => ""), errors) := by
  have hlen : ¬ (errors.ErrorContent.length = 0) := by
    intro hc; exact h (List.length_eq_zero.1 hc)
  have hpos : errors.ErrorContent.length > 0 := by omega
  simp only [getContentJSON, hlen, if_false, hpos, if_true]
  cases lib.MarshalErrors { ErrorContent := errors.ErrorContent } <;> rfl

/-- When the loader reported no error and the interleaved sequence is marshalled without
error, the bytes handed to `fmt.Fprintf` are the success envelope with status 200. -/
theorem getContentJSON_of_success (lib : JsonLib) (env : Env) (articles : Articles) (ads : Advs)
    (errors : appErrors) (items : List ResponseItem) (js : String)
    (hempty : errors.ErrorContent = [])
    (hitems : responseItemsSlice env articles ads = Except.ok items)
    (hjs : lib.MarshalResponse { StatusCode := 200, Content := items } = Except.ok js) :
    getContentJSON lib env (articles, ads, errors) = Except.ok (js, errors) := by
  simp [getContentJSON, combineContentWithAds, hempty, hitems, hjs]

/-- When the loader reported no error but marshalling the interleaved sequence fails, the
bytes handed to `fmt.Fprintf` are the marshalled error collection holding one 502 entry. -/
theorem getContentJSON_of_marshal_error (lib : JsonLib) (env : Env) (articles : Articles)
    (ads : Advs) (errors : appErrors) (items : List ResponseItem) (err : String)
    (hempty : errors.ErrorContent = [])
    (hitems : responseItemsSlice env articles ads = Except.ok items)
    (hjs : lib.MarshalResponse { StatusCode := 200, Content := items } = Except.error err) :
    getContentJSON lib env (articles, ads, errors)
      = Except.ok ((match lib.MarshalErrors
            { ErrorContent :=
                [{ Code := 502, Message := "Error while combining content with ads: " ++ err }] }
            with
          | Except.ok js => js
          | Except.error _ => ""),
          { ErrorContent :=
              [{ Code := 502, Message := "Error while combining content with ads: " ++ err }] }) := by
  simp only [getContentJSON, combineContentWithAds, hempty, hitems, hjs, appErrors.addError,
    List.length_nil, if_true, List.nil_append, List.length_singleton]
  cases lib.MarshalErrors
    { ErrorContent :=
        [{ Code := 502, Message := "Error while combining content with ads: " ++ err }] } <;> rfl

/-- C4 (defect in the code).  When the loader reported no error and the interleaved sequence is
marshalled to the success envelope `js`, the body `getContent` writes is not `js` but what
`fmt.Fprintf` makes of `js` used as a format string with no operand.  It equals the envelope
only when `js` holds no percent sign. -/
theorem getContent_success_body (lib : JsonLib) (env : Env) (articles : Articles) (ads : Advs)
    (errors : appErrors) (items : List ResponseItem) (js : String)
    (hempty : errors.ErrorContent = [])
    (hitems : responseItemsSlice env articles ads = Except.ok items)
    (hjs : lib.MarshalResponse { StatusCode := 200, Content := items } = Except.ok js) :
    getContent lib env (articles, ads, errors) = Except.ok (Fprintf js) ∧
    ('%' ∉ js.toList → getContent lib env (articles, ads, errors) = Except.ok js) := by
  have h := getContentJSON_of_success lib env articles ads errors items js hempty hitems hjs
  constructor
  · simp [getContent, h]
  · intro hp
    simp [getContent, h, Fprintf_of_no_percent js hp]

set_option maxRecDepth 20000 in
theorem getContent_success_body_witness :
    responseItemsSlice (envWith "5") percentArticles ads1
      = Except.ok [ResponseItem.articleItem (sampleArticle "100%")] ∧
    sampleJson.MarshalResponse
      { StatusCode := 200, Content := [ResponseItem.articleItem (sampleArticle "100%")] }
      = Except.ok percentJSON ∧
    getContent sampleJson (envWith "5") (percentArticles, ads1, { ErrorContent := [] })
      = Except.ok ("\x7b\"httpStatus\":200,\"content\":[\x7b\"type\":\"Article\",\"harvesterId\":\"\"," ++
          "\"cerebro-score\":0,\"url\":\"\",\"title\":\"100%!\"(MISSING),\"cleanImage\":\"\"\x7d]\x7d") := by
  refine ⟨rfl, rfl, ?_⟩
  rw [(getContent_success_body sampleJson (envWith "5") percentArticles ads1
    { ErrorContent := [] } _ percentJSON rfl rfl rfl).1]
  exact congrArg Except.ok (by decide)

/-! ## The shared error collection under two goroutines -/

theorem foldl_addError (calls : List (Int × String)) :
    ∀ (errs : appErrors),
      calls.foldl (fun acc c => appErrors.addError acc c.1 c.2) errs
        = { ErrorContent := errs.ErrorContent
              ++ calls.map (fun c => ({ Code := c.1, Message := c.2 } : appError)) } := by
  induction calls with
  | nil => intro errs; simp
  | cons c rest ih =>
    intro errs
    rw [List.foldl_cons, ih]
    simp [appErrors.addError]

/-- Run from any collection, `writeDataToStruct` appends its `addErrorCalls`, in order. -/
theorem writeDataToStruct_appends (net : Net) (lib : JsonLib) (url : String)
    (structToWrite : JSONFillable) (errs : appErrors) :
    (writeDataToStruct net lib url structToWrite errs).2
      = (addErrorCalls net lib url structToWrite).foldl
          (fun acc c => appErrors.addError acc c.1 c.2) errs := by
  rw [foldl_addError]
  unfold addErrorCalls writeDataToStruct
  cases hget : (getHTTPBytes net url).2 <;>
    cases hprep : (prepareStruct lib (getHTTPBytes net url).1 structToWrite).2 <;>
    simp [hget, hprep, appErrors.addError]

/-- A goroutine that is scheduled alone until it is done appends all its calls, in order. -/
theorem articles_alone (calls : List (Int × String)) :
    ∀ (st : SetStructsState), st.articles = { calls := calls, loaded := none } →
      (List.replicate (2 * calls.length) Routine.articles).foldl SetStructsState.step st
        = { errors := calls.foldl (fun acc c => appErrors.addError acc c.1 c.2) st.errors,
            articles := { calls := [], loaded := none }, ads := st.ads } := by
  induction calls with
  | nil =>
    intro st h
    cases st
    simp only [List.length_nil, Nat.mul_zero, List.replicate_zero, List.foldl_nil] at *
    rw [h]
  | cons c rest ih =>
    intro st h
    have e : 2 * (c :: rest).length = 2 * rest.length + 1 + 1 := by
      simp only [List.length_cons]; omega
    rw [e, List.replicate_succ, List.replicate_succ, List.foldl_cons, List.foldl_cons]
    rw [ih]
    · simp [SetStructsState.step, Goroutine.step, h, appErrors.addError]
    · simp [SetStructsState.step, Goroutine.step, h]

theorem ads_alone (calls : List (Int × String)) :
    ∀ (st : SetStructsState), st.ads = { calls := calls, loaded := none } →
      (List.replicate (2 * calls.length) Routine.ads).foldl SetStructsState.step st
        = { errors := calls.foldl (fun acc c => appErrors.addError acc c.1 c.2) st.errors,
            articles := st.articles, ads := { calls := [], loaded := none } } := by
  induction calls with
  | nil =>
    intro st h
    cases st
    simp only [List.length_nil, Nat.mul_zero, List.replicate_zero, List.foldl_nil] at *
    rw [h]
  | cons c rest ih =>
    intro st h
    have e : 2 * (c :: rest).length = 2 * rest.length + 1 + 1 := by
      simp only [List.length_cons]; omega
    rw [e, List.replicate_succ, List.replicate_succ, List.foldl_cons, List.foldl_cons]
    rw [ih]
    · simp [SetStructsState.step, Goroutine.step, h, appErrors.addError]
    · simp [SetStructsState.step, Goroutine.step, h]

/-- When the two goroutines do not overlap (the first runs to its end, then the second), the
collection after the join holds every entry of both, in order: the step model loses nothing
by itself. -/
theorem setStructs_sequential_keeps_all (net : Net) (lib : JsonLib) (env : Env) :
    (setStructsRun net lib env
        (List.replicate (2 * (setStructsStart net lib env).articles.calls.length) Routine.articles
          ++ List.replicate (2 * (setStructsStart net lib env).ads.calls.length) Routine.ads)).joined
      = true ∧
    (setStructsRun net lib env
        (List.replicate (2 * (setStructsStart net lib env).articles.calls.length) Routine.articles
          ++ List.replicate (2 * (setStructsStart net lib env).ads.calls.length) Routine.ads)).errors
      = { ErrorContent :=
            ((setStructsStart net lib env).articles.calls
              ++ (setStructsStart net lib env).ads.calls).map
              (fun c => ({ Code := c.1, Message := c.2 } : appError)) } := by
  unfold setStructsRun
  rw [List.foldl_append,
    articles_alone (setStructsStart net lib env).articles.calls (setStructsStart net lib env) rfl]
  rw [ads_alone (setStructsStart net lib env).ads.calls
    { errors := (setStructsStart net lib env).articles.calls.foldl
        (fun acc c => appErrors.addError acc c.1 c.2) (setStructsStart net lib env).errors,
      articles := { calls := [], loaded := none }, ads := (setStructsStart net lib env).ads } rfl]
  simp [SetStructsState.joined, foldl_addError, setStructsStart]

/-- C9 (defect in the code).  With both feeds unreachable each goroutine of `setStructs` calls
`addError` twice.  Under the schedule in which both first calls read the collection before
either writes it, both goroutines finish and `wg.Wait()` returns, but the collection holds
three entries of the four: the fetch error the articles goroutine added is lost,
overwritten by the write of the other goroutine. -/
theorem setStructs_lost_append :
    (setStructsRun unreachableNet sampleJson (envWith "5") overlappingSchedule).joined = true ∧
    (503, "Error of getting content for *main.Articles structure: connection refused")
      ∈ (setStructsStart unreachableNet sampleJson (envWith "5")).articles.calls ∧
    ({ Code := 503,
       Message := "Error of getting content for *main.Articles structure: connection refused" }
        : appError)
      ∉ (setStructsRun unreachableNet sampleJson (envWith "5") overlappingSchedule).errors.ErrorContent ∧
    (setStructsRun unreachableNet sampleJson (envWith "5") overlappingSchedule).errors.ErrorContent
      = [{ Code := 503,
           Message := "Error of getting content for *main.Advs structure: connection refused" },
         { Code := 503,
           Message := "Error of preparing structure *main.Articles: Json string is not a valid json" },
         { Code := 503,
           Message := "Error of preparing structure *main.Advs: Json string is not a valid json" }] := by
  have hrun :
      (setStructsRun unreachableNet sampleJson (envWith "5") overlappingSchedule).errors.ErrorContent
        = [{ Code := 503,
             Message := "Error of getting content for *main.Advs structure: connection refused" },
           { Code := 503,
             Message := "Error of preparing structure *main.Articles: Json string is not a valid json" },
           { Code := 503,
             Message := "Error of preparing structure *main.Advs: Json string is not a valid json" }] :=
    rfl
  refine ⟨rfl, ?_, ?_, hrun⟩
  · have hcalls : (setStructsStart unreachableNet sampleJson (envWith "5")).articles.calls
        = [(503, "Error of getting content for *main.Articles structure: connection refused"),
           (503, "Error of preparing structure *main.Articles: Json string is not a valid json")] :=
      rfl
    rw [hcalls]
    exact List.mem_cons_self _ _
  · rw [hrun]
    decide

end Testgo
